import Mathlib

/-!
Shallow embedding of the raking code in src/malaria_dengv/raking/raking_child.py and
src/malaria_dengv/raking/raking_launcher.py, and proofs of the specification claims.

Modelling conventions:
* An xarray dataset keyed by location_id (and, after attach_hierarchy, carrying a
  parent_id variable) is a list of rows; one row is one location slice, whose value is a
  function over the remaining stratifying dimension combinations (age, sex, ...), given
  by a type parameter Dim.  All xarray arithmetic used by the code is elementwise over
  those dimensions, so it becomes a pointwise operation on those functions.
* Numeric values are rationals.  The one place the code can produce a float NaN that
  matters to the claims is the reindex step of sum_and_align_admin2_totals; a missing
  (NaN) aggregate is modelled as none, and the NaN rules of the xr.where cascade are
  made explicit (a comparison with NaN is False, arithmetic on NaN yields NaN).
-/

namespace MalariaDengv

/-- One location slice of the admin2 (fine) dataset after attach_hierarchy: the
location_id coordinate, the parent_id variable, and the value variable over the
remaining stratifying dimension combinations. -/
structure FineRow (Dim : Type) where
  loc : Int
  parent : Int
  value : Dim → ℚ

/-- One location slice of the admin1 (coarse) dataset: the location_id coordinate and
the value variable over the remaining stratifying dimension combinations. -/
structure CoarseRow (Dim : Type) where
  loc : Int
  value : Dim → ℚ

/-- One location slice of a raked dataset; values are Option-valued so that a float NaN
produced by the factor cascade is representable as none. -/
structure RakedRow (Dim : Type) where
  loc : Int
  parent : Int
  value : Dim → Option ℚ

variable {Dim : Type}

instance [DecidableEq (Dim → ℚ)] : DecidableEq (FineRow Dim) := fun a b =>
  decidable_of_iff (a.loc = b.loc ∧ a.parent = b.parent ∧ a.value = b.value)
    (by cases a; cases b; simp)

instance [DecidableEq (Dim → ℚ)] : DecidableEq (CoarseRow Dim) := fun a b =>
  decidable_of_iff (a.loc = b.loc ∧ a.value = b.value)
    (by cases a; cases b; simp)

instance [DecidableEq (Dim → Option ℚ)] : DecidableEq (RakedRow Dim) := fun a b =>
  decidable_of_iff (a.loc = b.loc ∧ a.parent = b.parent ∧ a.value = b.value)
    (by cases a; cases b; simp)

/-- Values of the location_id coordinate of a fine dataset. -/
def fineIds (t : List (FineRow Dim)) : List Int :=
  t.map FineRow.loc

/-- Values of the parent_id variable of a fine dataset. -/
def fineParents (t : List (FineRow Dim)) : List Int :=
  t.map FineRow.parent

/-- Values of the location_id coordinate of a coarse dataset. -/
def coarseIds (t : List (CoarseRow Dim)) : List Int :=
  t.map CoarseRow.loc

/-- Mirrors split_ds_admin2: common_ids is the intersection of the parent_id values of
the admin2 dataset with the location_id values of the admin1 dataset, and the admin2
dataset is split by the row mask parent_id isin common_ids.  The source builds both
halves with ds.where(mask, drop=True), which keeps exactly the location slices whose
mask is True, so the split is a filter on rows. -/
def split_ds_admin2 (ds_admin2 : List (FineRow Dim)) (ds_admin1 : List (CoarseRow Dim)) :
    List (FineRow Dim) × List (FineRow Dim) :=
  let mask : FineRow Dim → Bool := fun r =>
    decide (r.parent ∈ fineParents ds_admin2 ∧ r.parent ∈ coarseIds ds_admin1)
  (ds_admin2.filter mask, ds_admin2.filter (fun r => ! mask r))

/-- Mirrors split_ds_admin1: the admin1 dataset is split into the rows whose
location_id lies in the same common_ids intersection and the remaining rows.  The
source selects with .sel over a Python set, whose iteration order is unspecified; the
claims only concern the keyed content, which a row filter captures. -/
def split_ds_admin1 (ds_admin2 : List (FineRow Dim)) (ds_admin1 : List (CoarseRow Dim)) :
    List (CoarseRow Dim) × List (CoarseRow Dim) :=
  (ds_admin1.filter (fun c =>
      decide (c.loc ∈ fineParents ds_admin2 ∧ c.loc ∈ coarseIds ds_admin1)),
   ds_admin1.filter (fun c =>
      ! decide (c.loc ∈ fineParents ds_admin2 ∧ c.loc ∈ coarseIds ds_admin1)))

/-- Mirrors groupby(parent_id).sum(dim=location_id) at one parent: the sum of the value
variable over the location slices whose parent_id equals the given parent, elementwise
in the other dimensions. -/
def childSum (t : List (FineRow Dim)) (p : Int) (d : Dim) : ℚ :=
  ((t.filter (fun r => decide (r.parent = p))).map (fun r => r.value d)).sum

/-- Mirrors the reindex step of sum_and_align_admin2_totals: the grouped sums are keyed
by the distinct parent_id values present, and reindexing to an admin1 location_id that
is not among them fills the aggregate with NaN, modelled as none. -/
def alignedChildSum (ds_admin2 : List (FineRow Dim)) (p : Int) : Option (Dim → ℚ) :=
  if p ∈ fineParents ds_admin2 then some (fun d => childSum ds_admin2 p d) else none

/-- Mirrors the xr.where cascade of sum_and_align_admin2_totals at one element, with
aligned the (possibly NaN) aggregate and a the admin1 value:
xr.where((aligned == 0) or (a == 0), 1.0, a / xr.where(aligned == 0, 1, aligned)).
A comparison with NaN is False and division by NaN yields NaN, so a NaN aggregate gives
factor 1.0 when a = 0 and NaN otherwise. -/
def whereFactor (aligned : Option ℚ) (a : ℚ) : Option ℚ :=
  if aligned = some 0 ∨ a = 0 then some 1
  else aligned.map (fun s => a / (if s = 0 then 1 else s))

/-- Mirrors sum_and_align_admin2_totals: one factor entry per admin1 row, keyed by its
location_id, with the xr.where cascade applied elementwise over the remaining
dimensions. -/
def sum_and_align_admin2_totals (ds_admin2 : List (FineRow Dim))
    (ds_admin1 : List (CoarseRow Dim)) : List (Int × (Dim → Option ℚ)) :=
  ds_admin1.map (fun c =>
    (c.loc, fun d => whereFactor ((alignedChildSum ds_admin2 c.loc).map (fun f => f d))
      (c.value d)))

/-- Label lookup factor_da.sel(parent_id = p): the factor entry keyed by p.  A missing
label raises in xarray; it is modelled as none and is unreachable for the pipeline
inputs (every parent_id of the with-parent partition is a key of the factor table). -/
def factorLookup (factor : List (Int × (Dim → Option ℚ))) (p : Int) (d : Dim) :
    Option ℚ :=
  match factor.find? (fun e => decide (e.1 = p)) with
  | some e => e.2 d
  | none => none

/-- One row of broadcast_factor_to_admin2: the factor keyed by the parent_id of the row
is multiplied into its value, elementwise over the remaining dimensions; NaN
propagates through the product. -/
def rakeRow (factor : List (Int × (Dim → Option ℚ))) (r : FineRow Dim) : RakedRow Dim :=
  ⟨r.loc, r.parent, fun d => (factorLookup factor r.parent d).map (fun f => r.value d * f)⟩

/-- Mirrors broadcast_factor_to_admin2 followed by build_raked_dataset: every row of
the with-parent admin2 dataset keeps its location_id and parent_id and has its value
replaced by value times the factor of its parent. -/
def broadcast_factor_to_admin2 (ds_admin2 : List (FineRow Dim))
    (factor : List (Int × (Dim → Option ℚ))) : List (RakedRow Dim) :=
  ds_admin2.map (rakeRow factor)

/-- Mirrors merge_raked_and_unraked_admin2_dask: concatenation along location_id of the
raked dataset and the untouched without-parent dataset (whose values are plain
rationals, injected by some). -/
def merge_raked_and_unraked (raked : List (RakedRow Dim))
    (without : List (FineRow Dim)) : List (RakedRow Dim) :=
  raked ++ without.map (fun r => ⟨r.loc, r.parent, fun d => some (r.value d)⟩)

/-- Mirrors drop_data_variables: only the value variable is kept, so a row reduces to
its location_id coordinate and its value. -/
def drop_data_variables (t : List (RakedRow Dim)) : List (Int × (Dim → Option ℚ)) :=
  t.map (fun r => (r.loc, r.value))

/-- Steps 5 to 7 of main_raking_function: the factor table computed from the
with-parent admin2 partition and the with-parent admin1 partition. -/
def pipelineFactor (fine : List (FineRow Dim)) (coarse : List (CoarseRow Dim)) :
    List (Int × (Dim → Option ℚ)) :=
  sum_and_align_admin2_totals (split_ds_admin2 fine coarse).1
    (split_ds_admin1 fine coarse).1

/-- Steps 5 to 8 of main_raking_function: the raked with-parent partition. -/
def rakedPartition (fine : List (FineRow Dim)) (coarse : List (CoarseRow Dim)) :
    List (RakedRow Dim) :=
  broadcast_factor_to_admin2 (split_ds_admin2 fine coarse).1 (pipelineFactor fine coarse)

/-- Steps 5 to 9 of main_raking_function: the merge of the raked with-parent partition
with the untouched without-parent partition. -/
def mergedOutput (fine : List (FineRow Dim)) (coarse : List (CoarseRow Dim)) :
    List (RakedRow Dim) :=
  merge_raked_and_unraked (rakedPartition fine coarse) (split_ds_admin2 fine coarse).2

/-- Steps 5 to 10 of main_raking_function: the merged output projected to the value
variable, the table that is persisted. -/
def finalOutput (fine : List (FineRow Dim)) (coarse : List (CoarseRow Dim)) :
    List (Int × (Dim → Option ℚ)) :=
  drop_data_variables (mergedOutput fine coarse)

/-! Structural lemmas about the partition steps. -/

lemma mem_split2_fst_iff {fine : List (FineRow Dim)} {coarse : List (CoarseRow Dim)}
    {r : FineRow Dim} :
    r ∈ (split_ds_admin2 fine coarse).1 ↔ r ∈ fine ∧ r.parent ∈ coarseIds coarse := by
  simp only [split_ds_admin2, List.mem_filter, decide_eq_true_iff]
  constructor
  · rintro ⟨h1, _, h3⟩
    exact ⟨h1, h3⟩
  · rintro ⟨h1, h3⟩
    exact ⟨h1, List.mem_map_of_mem FineRow.parent h1, h3⟩

lemma mem_split2_snd_iff {fine : List (FineRow Dim)} {coarse : List (CoarseRow Dim)}
    {r : FineRow Dim} :
    r ∈ (split_ds_admin2 fine coarse).2 ↔ r ∈ fine ∧ r.parent ∉ coarseIds coarse := by
  simp only [split_ds_admin2, List.mem_filter, Bool.not_eq_true', decide_eq_false_iff_not]
  constructor
  · rintro ⟨h1, h2⟩
    refine ⟨h1, fun h3 => h2 ⟨List.mem_map_of_mem FineRow.parent h1, h3⟩⟩
  · rintro ⟨h1, h3⟩
    exact ⟨h1, fun h => h3 h.2⟩

lemma mem_split1_fst_iff {fine : List (FineRow Dim)} {coarse : List (CoarseRow Dim)}
    {c : CoarseRow Dim} :
    c ∈ (split_ds_admin1 fine coarse).1 ↔ c ∈ coarse ∧ c.loc ∈ fineParents fine := by
  simp only [split_ds_admin1, List.mem_filter, decide_eq_true_iff]
  constructor
  · rintro ⟨h1, h2, _⟩
    exact ⟨h1, h2⟩
  · rintro ⟨h1, h2⟩
    exact ⟨h1, h2, List.mem_map_of_mem CoarseRow.loc h1⟩

/-- Every location of the restricted coarse partition has at least one child row in the
with-parent fine partition, so the reindex step never manufactures a NaN there. -/
lemma loc_mem_parents_of_mem_split1 {fine : List (FineRow Dim)}
    {coarse : List (CoarseRow Dim)} {c : CoarseRow Dim}
    (hc : c ∈ (split_ds_admin1 fine coarse).1) :
    c.loc ∈ fineParents (split_ds_admin2 fine coarse).1 := by
  obtain ⟨hcc, hp⟩ := mem_split1_fst_iff.mp hc
  obtain ⟨r, hr, hrp⟩ := List.mem_map.mp hp
  have hrw : r ∈ (split_ds_admin2 fine coarse).1 :=
    mem_split2_fst_iff.mpr ⟨hr, hrp ▸ List.mem_map_of_mem CoarseRow.loc hcc⟩
  exact hrp ▸ List.mem_map_of_mem FineRow.parent hrw

lemma alignedChildSum_of_mem {t : List (FineRow Dim)} {p : Int}
    (h : p ∈ fineParents t) :
    alignedChildSum t p = some (fun d => childSum t p d) := by
  simp [alignedChildSum, h]

lemma whereFactor_some {s a : ℚ} :
    whereFactor (some s) a = some (if s = 0 ∨ a = 0 then 1 else a / s) := by
  unfold whereFactor
  by_cases hs : s = 0
  · simp [hs]
  · by_cases ha : a = 0 <;> simp [hs, ha]

lemma find?_loc_eq_self {l : List (CoarseRow Dim)} (h : (coarseIds l).Nodup)
    {c : CoarseRow Dim} (hc : c ∈ l) :
    l.find? (fun e => decide (e.loc = c.loc)) = some c := by
  induction l with
  | nil => cases hc
  | cons a l ih =>
    rw [coarseIds, List.map_cons, List.nodup_cons] at h
    rcases List.mem_cons.mp hc with rfl | hmem
    · simp [List.find?]
    · have hne : ¬(a.loc = c.loc) := by
        intro he
        exact h.1 (he ▸ List.mem_map_of_mem CoarseRow.loc hmem)
      rw [List.find?_cons_of_neg _ (by simpa using hne)]
      exact ih h.2 hmem

lemma nodup_split1_ids {fine : List (FineRow Dim)} {coarse : List (CoarseRow Dim)}
    (hnd : (coarseIds coarse).Nodup) :
    (coarseIds (split_ds_admin1 fine coarse).1).Nodup :=
  List.Nodup.sublist (List.Sublist.map CoarseRow.loc (List.filter_sublist coarse)) hnd

/-- The factor entry the pipeline associates to a coarse row of the restricted
partition: the xr.where cascade evaluated on the children sum of that row. -/
lemma factor_spec {fine : List (FineRow Dim)} {coarse : List (CoarseRow Dim)}
    (hnd : (coarseIds coarse).Nodup) {c : CoarseRow Dim}
    (hc : c ∈ (split_ds_admin1 fine coarse).1) (d : Dim) :
    factorLookup (pipelineFactor fine coarse) c.loc d =
      some (if childSum (split_ds_admin2 fine coarse).1 c.loc d = 0 ∨ c.value d = 0
            then 1
            else c.value d / childSum (split_ds_admin2 fine coarse).1 c.loc d) := by
  unfold factorLookup pipelineFactor sum_and_align_admin2_totals
  rw [List.find?_map]
  have hpred : ((fun e : Int × (Dim → Option ℚ) => decide (e.1 = c.loc)) ∘
      (fun c2 : CoarseRow Dim =>
        ((c2.loc, fun d => whereFactor
          ((alignedChildSum (split_ds_admin2 fine coarse).1 c2.loc).map (fun f => f d))
          (c2.value d)) : Int × (Dim → Option ℚ)))) =
      fun e : CoarseRow Dim => decide (e.loc = c.loc) := rfl
  rw [hpred, find?_loc_eq_self (nodup_split1_ids hnd) hc]
  show whereFactor
      ((alignedChildSum (split_ds_admin2 fine coarse).1 c.loc).map (fun f => f d))
      (c.value d) = _
  rw [alignedChildSum_of_mem (loc_mem_parents_of_mem_split1 hc)]
  simpa using whereFactor_some

/-! Claim theorems about the raking pipeline. -/

/-- C1 Conservation: for every coarse entity id present in both the with-parent fine
partition and the restricted coarse table, if its coarse authoritative value is
non-zero and the sum of the fine-level values of its children is non-zero, then for
each dimension combination the raked fine-level values over its children are all
defined and sum to the coarse authoritative value. -/
theorem conservation (fine : List (FineRow Dim)) (coarse : List (CoarseRow Dim))
    (hnd : (coarseIds coarse).Nodup) (c : CoarseRow Dim)
    (hc : c ∈ (split_ds_admin1 fine coarse).1) (d : Dim)
    (ha : c.value d ≠ 0)
    (hs : childSum (split_ds_admin2 fine coarse).1 c.loc d ≠ 0) :
    (∀ r ∈ (rakedPartition fine coarse).filter (fun r => decide (r.parent = c.loc)),
        (r.value d).isSome = true) ∧
    (((rakedPartition fine coarse).filter (fun r => decide (r.parent = c.loc))).map
        (fun r => (r.value d).getD 0)).sum = c.value d := by
  have hfac := factor_spec hnd hc d
  rw [if_neg (by push_neg; exact ⟨hs, ha⟩)] at hfac
  have hfilter : (rakedPartition fine coarse).filter (fun r => decide (r.parent = c.loc))
      = ((split_ds_admin2 fine coarse).1.filter (fun r => decide (r.parent = c.loc))).map
          (rakeRow (pipelineFactor fine coarse)) := by
    unfold rakedPartition broadcast_factor_to_admin2
    exact List.filter_map _ _
  constructor
  · intro r hr
    rw [hfilter] at hr
    obtain ⟨r0, hr0, rfl⟩ := List.mem_map.mp hr
    have hrp : r0.parent = c.loc := by
      have := (List.mem_filter.mp hr0).2
      exact decide_eq_true_iff.mp this
    show ((factorLookup (pipelineFactor fine coarse) r0.parent d).map
        (fun f => r0.value d * f)).isSome = true
    rw [hrp, hfac]
    rfl
  · rw [hfilter, List.map_map]
    have hmc : ((split_ds_admin2 fine coarse).1.filter
          (fun r => decide (r.parent = c.loc))).map
        ((fun r : RakedRow Dim => (r.value d).getD 0) ∘
          rakeRow (pipelineFactor fine coarse))
        = ((split_ds_admin2 fine coarse).1.filter
            (fun r => decide (r.parent = c.loc))).map
          (fun r0 => r0.value d *
            (c.value d / childSum (split_ds_admin2 fine coarse).1 c.loc d)) := by
      refine List.map_congr_left ?_
      intro r0 hr0
      have hrp : r0.parent = c.loc :=
        decide_eq_true_iff.mp (List.mem_filter.mp hr0).2
      show ((factorLookup (pipelineFactor fine coarse) r0.parent d).map
          (fun f => r0.value d * f)).getD 0 = _
      rw [hrp, hfac]
      rfl
    rw [hmc, List.sum_map_mul_right]
    show childSum (split_ds_admin2 fine coarse).1 c.loc d * _ = _
    exact mul_div_cancel₀ (c.value d) hs

/-- C2 Factor computation: for every coarse entity id in the restricted coarse table
and every dimension combination, the raking factor equals the coarse authoritative
value divided by the sum of the fine-level values of the children, except that the
factor equals 1.0 wherever that children sum is zero or the coarse authoritative value
is zero. -/
theorem factor_formula (fine : List (FineRow Dim)) (coarse : List (CoarseRow Dim))
    (hnd : (coarseIds coarse).Nodup) (c : CoarseRow Dim)
    (hc : c ∈ (split_ds_admin1 fine coarse).1) (d : Dim) :
    factorLookup (pipelineFactor fine coarse) c.loc d =
      some (if childSum (split_ds_admin2 fine coarse).1 c.loc d = 0 ∨ c.value d = 0
            then 1
            else c.value d / childSum (split_ds_admin2 fine coarse).1 c.loc d) :=
  factor_spec hnd hc d

/-- C3 Identity on degenerate groups: a fine-level row of the with-parent partition
whose parent has a zero children sum or a zero coarse authoritative value keeps its
value unchanged under raking, the factor applied to it being 1.0. -/
theorem degenerate_group_identity (fine : List (FineRow Dim))
    (coarse : List (CoarseRow Dim)) (hnd : (coarseIds coarse).Nodup)
    (c : CoarseRow Dim) (hc : c ∈ (split_ds_admin1 fine coarse).1)
    (r : FineRow Dim) (hr : r ∈ (split_ds_admin2 fine coarse).1)
    (hrc : r.parent = c.loc) (d : Dim)
    (hdeg : childSum (split_ds_admin2 fine coarse).1 c.loc d = 0 ∨ c.value d = 0) :
    rakeRow (pipelineFactor fine coarse) r ∈ rakedPartition fine coarse ∧
    (rakeRow (pipelineFactor fine coarse) r).value d = some (r.value d) := by
  constructor
  · exact List.mem_map_of_mem _ hr
  · show (factorLookup (pipelineFactor fine coarse) r.parent d).map
        (fun f => r.value d * f) = _
    rw [hrc, factor_spec hnd hc d, if_pos hdeg]
    simp

/-- C4 Entity-set preservation: the location_id set of the merged, projected output
equals the location_id set of the pre-partition fine table; the split, the raking and
the concatenation neither create nor drop an entity id. -/
theorem entity_set_preservation (fine : List (FineRow Dim))
    (coarse : List (CoarseRow Dim)) (i : Int) :
    i ∈ (finalOutput fine coarse).map Prod.fst ↔ i ∈ fineIds fine := by
  have hmem : ∀ t : List (RakedRow Dim),
      i ∈ (drop_data_variables t).map Prod.fst ↔ ∃ r ∈ t, r.loc = i := by
    intro t
    simp [drop_data_variables, List.mem_map]
  rw [finalOutput, hmem]
  unfold mergedOutput merge_raked_and_unraked rakedPartition broadcast_factor_to_admin2
  constructor
  · rintro ⟨r, hr, rfl⟩
    rcases List.mem_append.mp hr with hr1 | hr2
    · obtain ⟨r0, hr0, rfl⟩ := List.mem_map.mp hr1
      exact List.mem_map_of_mem FineRow.loc (mem_split2_fst_iff.mp hr0).1
    · obtain ⟨r0, hr0, rfl⟩ := List.mem_map.mp hr2
      exact List.mem_map_of_mem FineRow.loc (mem_split2_snd_iff.mp hr0).1
  · intro hi
    obtain ⟨r, hr, hrl⟩ := List.mem_map.mp hi
    by_cases hp : r.parent ∈ coarseIds coarse
    · refine ⟨rakeRow (pipelineFactor fine coarse) r, ?_, hrl⟩
      exact List.mem_append_left _
        (List.mem_map_of_mem _ (mem_split2_fst_iff.mpr ⟨hr, hp⟩))
    · refine ⟨⟨r.loc, r.parent, fun d => some (r.value d)⟩, ?_, hrl⟩
      exact List.mem_append_right _
        (List.mem_map.mpr ⟨r, mem_split2_snd_iff.mpr ⟨hr, hp⟩, rfl⟩)

/-- C7 No-parent passthrough: the without-parent fine partition reaches the merge
unchanged and never receives a factor, and every fine-level row whose parent_id is
absent from the coarse table appears in the final output with its original value. -/
theorem no_parent_passthrough (fine : List (FineRow Dim))
    (coarse : List (CoarseRow Dim)) (r : FineRow Dim) (hr : r ∈ fine)
    (hp : r.parent ∉ coarseIds coarse) :
    mergedOutput fine coarse = rakedPartition fine coarse ++
      ((split_ds_admin2 fine coarse).2).map
        (fun r0 => (⟨r0.loc, r0.parent, fun d => some (r0.value d)⟩ : RakedRow Dim)) ∧
    ((r.loc, fun d => some (r.value d)) : Int × (Dim → Option ℚ)) ∈
      finalOutput fine coarse := by
  refine ⟨rfl, ?_⟩
  have hwop : r ∈ (split_ds_admin2 fine coarse).2 := mem_split2_snd_iff.mpr ⟨hr, hp⟩
  refine List.mem_map.mpr
    ⟨⟨r.loc, r.parent, fun d => some (r.value d)⟩, ?_, rfl⟩
  exact List.mem_append_right _ (List.mem_map.mpr ⟨r, hwop, rfl⟩)

/-! Concrete example data: the scenario of spec section 8 item 6.  Coarse entity 10
has value 100; fine entities 530 and 531 are its children with values 30 and 20; fine
entity 532 is an orphan under parent 99, absent from the coarse table.  The dimension
type is a singleton. -/

def fineEx : List (FineRow (Fin 1)) :=
  [⟨530, 10, fun _ => 30⟩, ⟨531, 10, fun _ => 20⟩, ⟨532, 99, fun _ => 5⟩]

def coarseEx : List (CoarseRow (Fin 1)) := [⟨10, fun _ => 100⟩]

def cEx : CoarseRow (Fin 1) := ⟨10, fun _ => 100⟩

def rEx : FineRow (Fin 1) := ⟨532, 99, fun _ => 5⟩

/-- The embedding reproduces the concrete expectations of spec section 8 item 6: the
factor of coarse entity 10 is 2.0, the raked children are 60 and 40, the orphan stays 5
and the output id set is the full fine id set. -/
theorem example_scenario_eval :
    factorLookup (pipelineFactor fineEx coarseEx) 10 0 = some 2 ∧
    (rakedPartition fineEx coarseEx).map (fun r => (r.loc, (r.value 0).getD 0)) =
      [(530, 60), (531, 40)] ∧
    (finalOutput fineEx coarseEx).map Prod.fst = [530, 531, 532] ∧
    ((532 : Int), (fun _ => some 5 : Fin 1 → Option ℚ)) ∈ finalOutput fineEx coarseEx := by
  refine ⟨?_, ?_, by decide, by decide⟩
  · norm_num [factorLookup, pipelineFactor, sum_and_align_admin2_totals, split_ds_admin2,
      split_ds_admin1, alignedChildSum, childSum, whereFactor, fineParents, coarseIds,
      fineEx, coarseEx, List.find?, List.filter]
  · norm_num [rakedPartition, broadcast_factor_to_admin2, rakeRow, factorLookup,
      pipelineFactor, sum_and_align_admin2_totals, split_ds_admin2, split_ds_admin1,
      alignedChildSum, childSum, whereFactor, fineParents, coarseIds, fineEx, coarseEx,
      List.find?, List.filter]

/-- Witness for the conservation theorem at the concrete scenario. -/
theorem conservation_witness :
    ((coarseIds coarseEx).Nodup ∧ cEx ∈ (split_ds_admin1 fineEx coarseEx).1 ∧
      cEx.value 0 ≠ 0 ∧ childSum (split_ds_admin2 fineEx coarseEx).1 cEx.loc 0 ≠ 0) ∧
    ((∀ r ∈ (rakedPartition fineEx coarseEx).filter
          (fun r => decide (r.parent = cEx.loc)), (r.value 0).isSome = true) ∧
      (((rakedPartition fineEx coarseEx).filter
          (fun r => decide (r.parent = cEx.loc))).map
        (fun r => (r.value 0).getD 0)).sum = cEx.value 0) := by
  have hs : childSum (split_ds_admin2 fineEx coarseEx).1 cEx.loc 0 ≠ 0 := by
    norm_num [childSum, split_ds_admin2, fineEx, coarseEx, cEx, fineParents, coarseIds,
      List.filter]
  exact ⟨⟨by decide, by decide, by decide, hs⟩,
    conservation fineEx coarseEx (by decide) cEx (by decide) 0 (by decide) hs⟩

/-- Witness for the factor formula theorem at the concrete scenario. -/
theorem factor_formula_witness :
    ((coarseIds coarseEx).Nodup ∧ cEx ∈ (split_ds_admin1 fineEx coarseEx).1) ∧
    factorLookup (pipelineFactor fineEx coarseEx) cEx.loc 0 =
      some (if childSum (split_ds_admin2 fineEx coarseEx).1 cEx.loc 0 = 0 ∨
              cEx.value 0 = 0
            then 1
            else cEx.value 0 / childSum (split_ds_admin2 fineEx coarseEx).1 cEx.loc 0) :=
  ⟨⟨by decide, by decide⟩, factor_formula fineEx coarseEx (by decide) cEx (by decide) 0⟩

/-! Concrete degenerate example: coarse entity 20 has authoritative value 0, with one
child 540 of value 30. -/

def fineDeg : List (FineRow (Fin 1)) := [⟨540, 20, fun _ => 30⟩]

def coarseDeg : List (CoarseRow (Fin 1)) := [⟨20, fun _ => 0⟩]

def cDeg : CoarseRow (Fin 1) := ⟨20, fun _ => 0⟩

def rDeg : FineRow (Fin 1) := ⟨540, 20, fun _ => 30⟩

/-- Witness for the degenerate identity theorem at a zero coarse value. -/
theorem degenerate_group_identity_witness :
    ((coarseIds coarseDeg).Nodup ∧ cDeg ∈ (split_ds_admin1 fineDeg coarseDeg).1 ∧
      rDeg ∈ (split_ds_admin2 fineDeg coarseDeg).1 ∧ rDeg.parent = cDeg.loc ∧
      (childSum (split_ds_admin2 fineDeg coarseDeg).1 cDeg.loc 0 = 0 ∨
        cDeg.value 0 = 0)) ∧
    (rakeRow (pipelineFactor fineDeg coarseDeg) rDeg ∈ rakedPartition fineDeg coarseDeg ∧
      (rakeRow (pipelineFactor fineDeg coarseDeg) rDeg).value 0 = some (rDeg.value 0)) :=
  ⟨⟨by decide, by decide, by decide, by decide, Or.inr (by decide)⟩,
    degenerate_group_identity fineDeg coarseDeg (by decide) cDeg (by decide) rDeg
      (by decide) (by decide) 0 (Or.inr (by decide))⟩

/-- Witness for the no-parent passthrough theorem at the concrete scenario. -/
theorem no_parent_passthrough_witness :
    (rEx ∈ fineEx ∧ rEx.parent ∉ coarseIds coarseEx) ∧
    (mergedOutput fineEx coarseEx = rakedPartition fineEx coarseEx ++
        ((split_ds_admin2 fineEx coarseEx).2).map
          (fun r0 => (⟨r0.loc, r0.parent, fun d => some (r0.value d)⟩ : RakedRow (Fin 1))) ∧
      ((rEx.loc, fun d => some (rEx.value d)) : Int × (Fin 1 → Option ℚ)) ∈
        finalOutput fineEx coarseEx) :=
  ⟨⟨by decide, by decide⟩,
    no_parent_passthrough fineEx coarseEx rEx (by decide) (by decide)⟩

/-! Key Reconciliation: impute_location_ids.  The table is the admin2 predictions
dataset before the hierarchy join, a list of entries (location_id, value over the
remaining dimension combinations). -/

/-- Values of the location_id coordinate of a keyed table. -/
def tableIds (t : List (Int × (Dim → ℚ))) : List Int :=
  t.map Prod.fst

/-- Label lookup: the value of the first entry carrying the given location_id. -/
def look (t : List (Int × (Dim → ℚ))) (i : Int) : Option (Dim → ℚ) :=
  (t.find? (fun r => decide (r.1 = i))).map Prod.snd

/-- Value lookup at one dimension combination, 0 when the label is absent. -/
def lookVal (t : List (Int × (Dim → ℚ))) (i : Int) (d : Dim) : ℚ :=
  ((look t i).map (fun f => f d)).getD 0

/-- Mirrors ds[value].loc[dict(location_id=new)] += ds[value].loc[dict(location_id=old)]:
every entry labelled new gets the value of the entry labelled old added elementwise. -/
def addInto (t : List (Int × (Dim → ℚ))) (old new : Int) : List (Int × (Dim → ℚ)) :=
  t.map (fun r => if r.1 = new then (r.1, fun d => r.2 d + lookVal t old d) else r)

/-- Mirrors assign_coords with xr.where(location_id == old, new, location_id): the
coordinate label old is rewritten to new in place. -/
def relabelCoord (t : List (Int × (Dim → ℚ))) (old new : Int) : List (Int × (Dim → ℚ)) :=
  t.map (fun r => if r.1 = old then (new, r.2) else r)

/-- Mirrors drop_sel(location_id=old): the entries labelled old are removed. -/
def drop_sel (t : List (Int × (Dim → ℚ))) (old : Int) : List (Int × (Dim → ℚ)) :=
  t.filter (fun r => decide (r.1 ≠ old))

/-- One iteration of the loop of impute_location_ids for the pair old to new: if old is
present, either add its value into new (when new is present) or relabel old to new;
afterwards drop the label old if it is still present. -/
def imputeStep (t : List (Int × (Dim → ℚ))) (old new : Int) : List (Int × (Dim → ℚ)) :=
  let t1 := if old ∈ tableIds t then
      (if new ∈ tableIds t then addInto t old new else relabelCoord t old new)
    else t
  if old ∈ tableIds t1 then drop_sel t1 old else t1

/-- The fixed IMPUTE_MAP of the source, in dict insertion order. -/
def IMPUTE_MAP : List (Int × Int) := [(60908, 44858), (95069, 44858), (94364, 44858)]

/-- Mirrors impute_location_ids: the loop over IMPUTE_MAP. -/
def impute_location_ids (t : List (Int × (Dim → ℚ))) : List (Int × (Dim → ℚ)) :=
  IMPUTE_MAP.foldl (fun acc p => imputeStep acc p.1 p.2) t

/-- Merge of two optional values; addition on collision.  This is the end state the
reconciliation produces at the canonical id. -/
def combineAdd (a b : Option (Dim → ℚ)) : Option (Dim → ℚ) :=
  match a, b with
  | some f, some g => some (fun d => f d + g d)
  | some f, none => some f
  | none, some g => some g
  | none, none => none

lemma combineAdd_none_left {b : Option (Dim → ℚ)} : combineAdd none b = b := by
  cases b <;> rfl

lemma combineAdd_none_right {a : Option (Dim → ℚ)} : combineAdd a none = a := by
  cases a <;> rfl

lemma look_isSome_iff_mem {t : List (Int × (Dim → ℚ))} {i : Int} :
    (look t i).isSome = true ↔ i ∈ tableIds t := by
  simp [look, tableIds, List.find?_isSome, List.mem_map]

lemma look_eq_none_iff_not_mem {t : List (Int × (Dim → ℚ))} {i : Int} :
    look t i = none ↔ i ∉ tableIds t := by
  rw [← look_isSome_iff_mem, Option.eq_none_iff_forall_not_mem]
  cases look t i <;> simp

lemma look_cons {r : Int × (Dim → ℚ)} {t : List (Int × (Dim → ℚ))} {i : Int} :
    look (r :: t) i = if r.1 = i then some r.2 else look t i := by
  by_cases h : r.1 = i
  · rw [look, List.find?_cons_of_pos _ (by simpa using h), if_pos h]
    rfl
  · rw [look, List.find?_cons_of_neg _ (by simpa using h), if_neg h]
    rfl

lemma look_map_if_eq {t : List (Int × (Dim → ℚ))} {n i : Int}
    (g : (Dim → ℚ) → (Dim → ℚ)) :
    look (t.map (fun r => if r.1 = n then (r.1, g r.2) else r)) i =
      if i = n then (look t n).map g else look t i := by
  induction t with
  | nil => by_cases h : i = n <;> simp [look, h]
  | cons r t ih =>
    by_cases hrn : r.1 = n
    · subst hrn
      by_cases hri : r.1 = i
      · subst hri
        simp [List.map_cons, look_cons]
      · have hir : ¬(i = r.1) := fun h => hri h.symm
        simp [List.map_cons, look_cons, hri, hir, ih]
    · by_cases hri : r.1 = i
      · subst hri
        simp [List.map_cons, look_cons, hrn]
      · simp [List.map_cons, look_cons, hrn, hri, ih]

lemma look_addInto {t : List (Int × (Dim → ℚ))} {old new i : Int} :
    look (addInto t old new) i =
      if i = new then (look t new).map (fun f => fun d => f d + lookVal t old d)
      else look t i :=
  look_map_if_eq (fun f => fun d => f d + lookVal t old d)

lemma look_relabel_new {t : List (Int × (Dim → ℚ))} {old new : Int}
    (hnew : new ∉ tableIds t) :
    look (relabelCoord t old new) new = look t old := by
  induction t with
  | nil => rfl
  | cons r t ih =>
    rw [tableIds, List.map_cons, List.mem_cons] at hnew
    push_neg at hnew
    have ih2 := ih (by simpa [tableIds] using hnew.2)
    simp only [relabelCoord, List.map_cons] at ih2 ⊢
    by_cases h : r.1 = old
    · simp [h, look_cons]
    · have h2 : ¬(r.1 = new) := fun he => hnew.1 he.symm
      simp [h, h2, look_cons, ih2]

lemma look_relabel_old {t : List (Int × (Dim → ℚ))} {old new : Int} (hon : old ≠ new) :
    look (relabelCoord t old new) old = none := by
  induction t with
  | nil => rfl
  | cons r t ih =>
    simp only [relabelCoord, List.map_cons] at ih ⊢
    by_cases h : r.1 = old
    · have h2 : ¬(new = old) := fun he => hon he.symm
      simp [h, h2, look_cons, ih]
    · simp [h, look_cons, ih]

lemma look_relabel_other {t : List (Int × (Dim → ℚ))} {old new i : Int}
    (hio : i ≠ old) (hin : i ≠ new) :
    look (relabelCoord t old new) i = look t i := by
  induction t with
  | nil => rfl
  | cons r t ih =>
    simp only [relabelCoord, List.map_cons] at ih ⊢
    by_cases h : r.1 = old
    · have h2 : ¬(new = i) := fun he => hin he.symm
      have h3 : ¬(r.1 = i) := fun he => hio (he.symm.trans h)
      have h4 : ¬(old = i) := fun he => hio he.symm
      simp [h, h2, h3, h4, look_cons, ih]
    · simp [h, look_cons, ih]

lemma look_drop_sel {t : List (Int × (Dim → ℚ))} {old i : Int} :
    look (drop_sel t old) i = if i = old then none else look t i := by
  induction t with
  | nil => by_cases h : i = old <;> simp [drop_sel, look, h]
  | cons r t ih =>
    simp only [drop_sel, List.filter_cons] at ih ⊢
    by_cases h : r.1 = old
    · have hd : decide (r.1 ≠ old) = false := by simp [h]
      rw [hd]
      simp only [Bool.false_eq_true, if_false]
      rw [ih]
      by_cases hio : i = old
      · rw [if_pos hio, if_pos hio]
      · have h2 : ¬(r.1 = i) := fun he => hio (he.symm.trans h)
        rw [if_neg hio, if_neg hio, look_cons, if_neg h2]
    · have hd : decide (r.1 ≠ old) = true := by simp [h]
      rw [hd]
      simp only [if_true]
      rw [look_cons, look_cons]
      by_cases h2 : r.1 = i
      · have hio : ¬(i = old) := fun he => h (h2.trans he)
        rw [if_pos h2, if_neg hio, if_pos h2]
      · rw [if_neg h2, if_neg h2, ih]

lemma tableIds_addInto {t : List (Int × (Dim → ℚ))} {old new : Int} :
    tableIds (addInto t old new) = tableIds t := by
  simp only [tableIds, addInto, List.map_map]
  refine List.map_congr_left ?_
  intro r _
  by_cases h : r.1 = new <;> simp [h]

lemma old_not_mem_relabel {t : List (Int × (Dim → ℚ))} {old new : Int}
    (hon : old ≠ new) : old ∉ tableIds (relabelCoord t old new) :=
  look_eq_none_iff_not_mem.mp (look_relabel_old hon)

/-- Effect of one loop iteration on the keyed content: the old label disappears, the
new label receives the merge of the previous new and old values, and every other label
is untouched. -/
lemma look_imputeStep {t : List (Int × (Dim → ℚ))} {old new i : Int} (hon : old ≠ new) :
    look (imputeStep t old new) i =
      if i = old then none
      else if i = new then combineAdd (look t new) (look t old)
      else look t i := by
  by_cases ho : old ∈ tableIds t
  · by_cases hn : new ∈ tableIds t
    · have hstep : imputeStep t old new = drop_sel (addInto t old new) old := by
        simp [imputeStep, ho, hn, tableIds_addInto]
      rw [hstep, look_drop_sel]
      by_cases hio : i = old
      · rw [if_pos hio, if_pos hio]
      · rw [if_neg hio, if_neg hio, look_addInto]
        by_cases hin : i = new
        · rw [if_pos hin, if_pos hin]
          obtain ⟨fo, hfo⟩ := Option.isSome_iff_exists.mp (look_isSome_iff_mem.mpr ho)
          obtain ⟨fn, hfn⟩ := Option.isSome_iff_exists.mp (look_isSome_iff_mem.mpr hn)
          rw [hfo, hfn]
          simp [combineAdd, lookVal, hfo]
        · rw [if_neg hin, if_neg hin]
    · have hstep : imputeStep t old new = relabelCoord t old new := by
        simp [imputeStep, ho, hn, old_not_mem_relabel hon]
      rw [hstep]
      by_cases hio : i = old
      · rw [if_pos hio, hio, look_relabel_old hon]
      · rw [if_neg hio]
        by_cases hin : i = new
        · rw [if_pos hin, hin, look_relabel_new hn,
            look_eq_none_iff_not_mem.mpr hn, combineAdd_none_left]
        · rw [if_neg hin, look_relabel_other hio hin]
  · have hstep : imputeStep t old new = t := by
      simp [imputeStep, ho]
    rw [hstep]
    have hnone : look t old = none := look_eq_none_iff_not_mem.mpr ho
    by_cases hio : i = old
    · rw [if_pos hio, hio, hnone]
    · rw [if_neg hio]
      by_cases hin : i = new
      · rw [if_pos hin, hnone, combineAdd_none_right, hin]
      · rw [if_neg hin]

lemma imputeStep_of_not_mem {t : List (Int × (Dim → ℚ))} {old new : Int}
    (h : old ∉ tableIds t) : imputeStep t old new = t := by
  simp [imputeStep, h]

lemma impute_eq_steps {t : List (Int × (Dim → ℚ))} :
    impute_location_ids t =
      imputeStep (imputeStep (imputeStep t 60908 44858) 95069 44858) 94364 44858 := by
  simp only [impute_location_ids, IMPUTE_MAP, List.foldl_cons, List.foldl_nil]

lemma mem_tableIds_iff {t : List (Int × (Dim → ℚ))} {i : Int} :
    i ∈ tableIds t ↔ (look t i).isSome = true :=
  look_isSome_iff_mem.symm

lemma look_impute_olds (t : List (Int × (Dim → ℚ))) :
    look (impute_location_ids t) 60908 = none ∧
    look (impute_location_ids t) 95069 = none ∧
    look (impute_location_ids t) 94364 = none := by
  have h1 : (60908 : Int) ≠ 44858 := by decide
  have h2 : (95069 : Int) ≠ 44858 := by decide
  have h3 : (94364 : Int) ≠ 44858 := by decide
  refine ⟨?_, ?_, ?_⟩ <;>
    simp [impute_eq_steps, look_imputeStep h1, look_imputeStep h2, look_imputeStep h3]

lemma look_impute_44858 (t : List (Int × (Dim → ℚ))) :
    look (impute_location_ids t) 44858 =
      combineAdd (combineAdd (combineAdd (look t 44858) (look t 60908)) (look t 95069))
        (look t 94364) := by
  have h1 : (60908 : Int) ≠ 44858 := by decide
  have h2 : (95069 : Int) ≠ 44858 := by decide
  have h3 : (94364 : Int) ≠ 44858 := by decide
  simp [impute_eq_steps, look_imputeStep h1, look_imputeStep h2, look_imputeStep h3]

lemma look_impute_other (t : List (Int × (Dim → ℚ))) (i : Int) (hi1 : i ≠ 44858)
    (hi2 : i ≠ 60908) (hi3 : i ≠ 95069) (hi4 : i ≠ 94364) :
    look (impute_location_ids t) i = look t i := by
  have h1 : (60908 : Int) ≠ 44858 := by decide
  have h2 : (95069 : Int) ≠ 44858 := by decide
  have h3 : (94364 : Int) ≠ 44858 := by decide
  simp [impute_eq_steps, look_imputeStep h1, look_imputeStep h2, look_imputeStep h3,
    hi1, hi2, hi3, hi4]

/-- C5 Key Reconciliation: after impute_location_ids, no old id of IMPUTE_MAP remains
in the table; the canonical id 44858 holds the elementwise sum of the values
previously held at 44858 and at every present old id (so a present old id is added
into a present 44858, a lone old id amounts to a relabel, colliding old ids are all
summed in, and the formula is symmetric in the old ids, hence order independent); and
every other id keeps its value. -/
theorem impute_reconciliation (t : List (Int × (Dim → ℚ)))
    (hnd : (tableIds t).Nodup) :
    ((60908 : Int) ∉ tableIds (impute_location_ids t) ∧
      (95069 : Int) ∉ tableIds (impute_location_ids t) ∧
      (94364 : Int) ∉ tableIds (impute_location_ids t)) ∧
    look (impute_location_ids t) 44858 =
      (if (44858 : Int) ∈ tableIds t ∨ (60908 : Int) ∈ tableIds t ∨
          (95069 : Int) ∈ tableIds t ∨ (94364 : Int) ∈ tableIds t
       then some (fun d => lookVal t 44858 d + lookVal t 60908 d + lookVal t 95069 d +
          lookVal t 94364 d)
       else none) ∧
    (∀ i : Int, i ≠ 44858 → i ≠ 60908 → i ≠ 95069 → i ≠ 94364 →
      look (impute_location_ids t) i = look t i) := by
  obtain ⟨e1, e2, e3⟩ := look_impute_olds t
  refine ⟨⟨look_eq_none_iff_not_mem.mp e1, look_eq_none_iff_not_mem.mp e2,
    look_eq_none_iff_not_mem.mp e3⟩, ?_,
    fun i hi1 hi2 hi3 hi4 => look_impute_other t i hi1 hi2 hi3 hi4⟩
  rw [look_impute_44858]
  rcases ha : look t 44858 with _ | fa <;> rcases hb : look t 60908 with _ | fb <;>
    rcases hc : look t 95069 with _ | fc <;> rcases hd : look t 94364 with _ | fd <;>
    simp [mem_tableIds_iff, combineAdd, lookVal, ha, hb, hc, hd]

/-- C6 Reconciliation idempotence: applying impute_location_ids twice yields the same
table as applying it once, since after the first pass no old id remains. -/
theorem impute_idempotent (t : List (Int × (Dim → ℚ))) :
    impute_location_ids (impute_location_ids t) = impute_location_ids t := by
  obtain ⟨e1, e2, e3⟩ := look_impute_olds t
  rw [impute_eq_steps,
    imputeStep_of_not_mem (look_eq_none_iff_not_mem.mp e1),
    imputeStep_of_not_mem (look_eq_none_iff_not_mem.mp e2),
    imputeStep_of_not_mem (look_eq_none_iff_not_mem.mp e3)]

/-- Concrete table for the reconciliation witness: the canonical id 44858 and the old
ids 60908 and 95069 are present, 94364 is absent. -/
def tImp : List (Int × (Fin 1 → ℚ)) :=
  [(44858, fun _ => 1), (60908, fun _ => 2), (95069, fun _ => 4)]

/-- Witness for the reconciliation theorem at the concrete table. -/
theorem impute_reconciliation_witness :
    (tableIds tImp).Nodup ∧
    (((60908 : Int) ∉ tableIds (impute_location_ids tImp) ∧
        (95069 : Int) ∉ tableIds (impute_location_ids tImp) ∧
        (94364 : Int) ∉ tableIds (impute_location_ids tImp)) ∧
      look (impute_location_ids tImp) 44858 =
        (if (44858 : Int) ∈ tableIds tImp ∨ (60908 : Int) ∈ tableIds tImp ∨
            (95069 : Int) ∈ tableIds tImp ∨ (94364 : Int) ∈ tableIds tImp
         then some (fun d => lookVal tImp 44858 d + lookVal tImp 60908 d +
            lookVal tImp 95069 d + lookVal tImp 94364 d)
         else none) ∧
      (∀ i : Int, i ≠ 44858 → i ≠ 60908 → i ≠ 95069 → i ≠ 94364 →
        look (impute_location_ids tImp) i = look tImp i)) :=
  ⟨by decide, impute_reconciliation tImp (by decide)⟩

namespace Loading

/-- Failure modes of the loading helpers before their first filesystem access.
valueError models the explicit raise ValueError for an invalid (scenario, measure)
combination; keyError models a Python KeyError from a failed dict lookup (CAUSE_MAP,
SCENARIO_MAP or MEASURE_MAP); nameError models the NameError raised when
get_predicted_ds reads the unbound draw_folder variable right after printing its
unknown-cause warning. -/
inductive LoadError where
  | valueError : String → LoadError
  | keyError : LoadError
  | nameError : LoadError
deriving DecidableEq

/-- CAUSE_MAP of get_forcasted_ds. -/
def CAUSE_MAP : List (String × String) :=
  [("malaria", "malaria.nc"), ("dengue", "ntd_dengue.nc")]

/-- scenario_and_measure_map of get_forcasted_ds: exactly the documented
(scenario, measure) combinations. -/
def scenario_and_measure_map : List ((Int × String) × String) :=
  [((0, "death"), "20250709_first_sub_rcp45_climate_ref_100d_hiv_shocks_covid_all_s8_num"),
   ((0, "incidence"), "20250719_rcp45_first_sub_climate_ref_scen0_agg_num"),
   ((0, "yll"), "20250709_rcp45_first_sub_climate_ref_agg_num_restored_draws"),
   ((0, "yld"), "20250719_rcp45_first_sub_climate_ref_scen0_agg_num"),
   ((75, "death"), "20250709_first_sub_rcp26_first_sub_climate_vector_borne_diseases_100d_hiv_shocks_covid_all_s8_num"),
   ((75, "incidence"), "20250719_rcp26_first_sub_climate_vector_borne_diseases_scen75_agg_num"),
   ((75, "yll"), "20250709_rcp26_first_sub_climate_vector_borne_diseases_agg_num_restored_draws"),
   ((75, "yld"), "20250719_rcp26_first_sub_climate_vector_borne_diseases_scen75_agg_num"),
   ((76, "death"), "20250709_first_sub_rcp85_first_sub_climate_vector_borne_diseases_100d_hiv_shocks_covid_all_s8_num"),
   ((76, "incidence"), "20250719_rcp85_first_sub_climate_vector_borne_diseases_scen76_agg_num"),
   ((76, "yll"), "20250709_rcp85_first_sub_climate_vector_borne_diseases_agg_num_restored_draws"),
   ((76, "yld"), "20250719_rcp85_first_sub_climate_vector_borne_diseases_scen76_agg_num")]

/-- Mirrors get_forcasted_ds up to its first filesystem access, the
file_path.exists() check: validation of the (scenario, measure) combination, the
CAUSE_MAP lookup, and construction of the dataset path.  An ok result carries the path
whose existence check is the first filesystem access of the function; an error value
is raised strictly before any filesystem access. -/
def get_forcasted_path (cause : String) (scenario : Int) (measure : String) :
    Except LoadError String :=
  match scenario_and_measure_map.find? (fun e => decide (e.1 = (scenario, measure))) with
  | none => .error (.valueError "Invalid scenario ID and measure combination.")
  | some e =>
    match CAUSE_MAP.find? (fun c => decide (c.1 = cause)) with
    | none => .error .keyError
    | some c =>
      .ok ("/mnt/share/forecasting/data/9/future/" ++ measure ++ "/" ++ e.2 ++ "/"
        ++ c.2)

/-- SCENARIO_MAP of get_predicted_ds. -/
def SCENARIO_MAP : List (Int × String) :=
  [(0, "ssp245"), (75, "ssp126"), (76, "ssp585")]

/-- MEASURE_MAP of get_predicted_ds. -/
def MEASURE_MAP : List (String × String) :=
  [("death", "mortality"), ("yll", "mortality"), ("incidence", "incidence"),
   ("yld", "incidence")]

/-- The main input directory of get_predicted_ds. -/
def predMainDir : String :=
  "/mnt/team/rapidresponse/pub/malaria-denv/deliverables/2025_08_26_admin_2_counts/input/"

/-- Mirrors get_predicted_ds up to its first filesystem access, the
draw_folder_path.exists() check: the SCENARIO_MAP and MEASURE_MAP lookups and the draw
folder construction.  An unknown cause only prints a warning and leaves draw_folder
unbound, so the very next line raises a NameError, still before any filesystem
access. -/
def get_predicted_folder (cause : String) (scenario : Int) (measure : String) :
    Except LoadError String :=
  match SCENARIO_MAP.find? (fun e => decide (e.1 = scenario)) with
  | none => .error .keyError
  | some s =>
    match MEASURE_MAP.find? (fun e => decide (e.1 = measure)) with
    | none => .error .keyError
    | some m =>
      if cause = "malaria" then
        .ok (predMainDir ++ "as_cause_" ++ cause ++ "_measure_" ++ m.2 ++
          "_metric_count_ssp_scenario_" ++ s.2 ++ "_dah_scenario_Baseline")
      else if cause = "dengue" then
        .ok (predMainDir ++ "as_cause_" ++ cause ++ "_measure_" ++ m.2 ++
          "_metric_count_ssp_scenario_" ++ s.2)
      else .error .nameError

/-- C8 Configuration errors fail fast: a (scenario, measure) combination outside the
documented lookup table, or an unrecognized cause, makes both loaders return an error
from the phase preceding their first filesystem access; neither loader silently
defaults to some dataset path. -/
theorem config_error_fail_fast (cause : String) (scenario : Int) (measure : String)
    (h : scenario_and_measure_map.find?
        (fun e => decide (e.1 = (scenario, measure))) = none ∨
      CAUSE_MAP.find? (fun c => decide (c.1 = cause)) = none) :
    (∃ err, get_forcasted_path cause scenario measure = .error err) ∧
    (∃ err, get_predicted_folder cause scenario measure = .error err) := by
  have hforc : ∃ err, get_forcasted_path cause scenario measure = .error err := by
    rcases h with h1 | h2
    · exact ⟨.valueError "Invalid scenario ID and measure combination.", by
        simp only [get_forcasted_path, h1]⟩
    · rcases hf : scenario_and_measure_map.find?
          (fun e => decide (e.1 = (scenario, measure))) with _ | e
      · exact ⟨.valueError "Invalid scenario ID and measure combination.", by
          simp only [get_forcasted_path, hf]⟩
      · exact ⟨.keyError, by simp only [get_forcasted_path, hf, h2]⟩
  refine ⟨hforc, ?_⟩
  rcases hs : SCENARIO_MAP.find? (fun e => decide (e.1 = scenario)) with _ | s
  · exact ⟨.keyError, by simp only [get_predicted_folder, hs]⟩
  rcases hm : MEASURE_MAP.find? (fun e => decide (e.1 = measure)) with _ | m
  · exact ⟨.keyError, by simp only [get_predicted_folder, hs, hm]⟩
  rcases h with h1 | h2
  · exfalso
    have hsm : s ∈ SCENARIO_MAP := List.mem_of_find?_eq_some hs
    have hsp : s.1 = scenario := by simpa using List.find?_some hs
    have hmm : m ∈ MEASURE_MAP := List.mem_of_find?_eq_some hm
    have hmp : m.1 = measure := by simpa using List.find?_some hm
    subst hsp
    subst hmp
    simp only [SCENARIO_MAP, List.mem_cons, List.not_mem_nil, or_false] at hsm
    simp only [MEASURE_MAP, List.mem_cons, List.not_mem_nil, or_false] at hmm
    rcases hsm with rfl | rfl | rfl <;> rcases hmm with rfl | rfl | rfl | rfl <;>
      exact absurd h1 (by decide)
  · have hcm : ¬(cause = "malaria") := by
      intro he
      subst he
      exact absurd h2 (by decide)
    have hcd : ¬(cause = "dengue") := by
      intro he
      subst he
      exact absurd h2 (by decide)
    exact ⟨.nameError, by
      simp only [get_predicted_folder, hs, hm, if_neg hcm, if_neg hcd]⟩

/-- Witness for the fail-fast theorem: the unknown cause cholera together with the
documented combination (0, death). -/
theorem config_error_fail_fast_witness :
    (scenario_and_measure_map.find?
        (fun e => decide (e.1 = ((0 : Int), "death"))) = none ∨
      CAUSE_MAP.find? (fun c => decide (c.1 = "cholera")) = none) ∧
    ((∃ err, get_forcasted_path "cholera" 0 "death" = .error err) ∧
      (∃ err, get_predicted_folder "cholera" 0 "death" = .error err)) :=
  ⟨Or.inr (by decide), config_error_fail_fast "cholera" 0 "death" (Or.inr (by decide))⟩

end Loading

namespace Launcher

def CAUSES : List String := ["malaria", "dengue"]

def SCENARIOS : List Int := [0, 75, 76]

def MEASURES : List String := ["death", "incidence", "yll", "yld"]

def DRAWS : List Int := (List.range 100).map Int.ofNat

/-- One task of the launcher, identified by its four node arguments. -/
structure Task where
  cause : String
  scenario : Int
  measure : String
  draw : Int
deriving DecidableEq

/-- SCENARIO_MAP of check_if_path_draw_exists. -/
def SCENARIO_MAP : List (Int × String) :=
  [(0, "ssp245"), (75, "ssp126"), (76, "ssp585")]

/-- Output path construction of check_if_path_draw_exists; none models the KeyError on
a scenario outside SCENARIO_MAP.  Note that only the measure death is renamed to
mortality here. -/
def output_name (cause : String) (scenario : Int) (measure : String) (draw : Int) :
    Option String :=
  (SCENARIO_MAP.find? (fun e => decide (e.1 = scenario))).map (fun s =>
    let m := if measure = "death" then "mortality" else measure
    let dirname := if cause = "malaria" then
        "as_cause_" ++ cause ++ "_measure_" ++ m ++ "_metric_count_ssp_scenario_" ++
          s.2 ++ "_dah_scenario_Baseline_raked"
      else
        "as_cause_" ++ cause ++ "_measure_" ++ m ++ "_metric_count_ssp_scenario_" ++
          s.2 ++ "_raked"
    "/mnt/team/rapidresponse/pub/malaria-denv/deliverables/2025_08_26_admin_2_counts/output/"
      ++ dirname ++ "/draw_" ++ toString draw ++ ".nc")

/-- Mirrors check_if_path_draw_exists, with the filesystem abstracted as a predicate
on paths. -/
def check_if_path_draw_exists (fs : String → Bool) (cause : String) (scenario : Int)
    (measure : String) (draw : Int) : Bool :=
  match output_name cause scenario measure draw with
  | some p => fs p
  | none => false

/-- Mirrors the task construction loop of raking_launcher: one task per element of the
cross product of CAUSES, SCENARIOS, MEASURES and DRAWS.  The loop never consults
check_if_path_draw_exists or the filesystem, as the absence of any such parameter
shows. -/
def tasks : List Task :=
  CAUSES.flatMap (fun c =>
    SCENARIOS.flatMap (fun s =>
      MEASURES.flatMap (fun m =>
        DRAWS.map (fun d => ⟨c, s, m, d⟩))))

/-- C9 evidence: the launcher defines check_if_path_draw_exists but its task loop
never calls it, so even a combination whose output file exists (the filesystem
predicate is constantly true here) still receives a task in the submitted list. -/
theorem tasks_ignore_existing_outputs :
    check_if_path_draw_exists (fun _ => true) "malaria" 0 "death" 0 = true ∧
    (⟨"malaria", 0, "death", 0⟩ : Task) ∈ tasks := by
  constructor
  · rfl
  · decide

end Launcher

/-! Restriction of the forecasted admin1 dataset to the requested draw. -/

/-- One entry of the forecasted admin1 dataset before the draw restriction: a
location_id, a draw index and the value over the remaining dimension combinations. -/
structure ForcastEntry (Dim : Type) where
  loc : Int
  draw : Int
  value : Dim → ℚ

instance [DecidableEq (Dim → ℚ)] : DecidableEq (ForcastEntry Dim) := fun a b =>
  decidable_of_iff (a.loc = b.loc ∧ a.draw = b.draw ∧ a.value = b.value)
    (by cases a; cases b; simp)

/-- Mirrors ds.where(ds[draw] == draw, drop=True) in get_forcasted_ds: only the
entries of the requested draw survive. -/
def whereDrawEq (ds : List (ForcastEntry Dim)) (draw : Int) :
    List (ForcastEntry Dim) :=
  ds.filter (fun e => decide (e.draw = draw))

/-- The admin1 table the raking steps consume after the draw restriction: the now
singleton draw dimension is collapsed into the coarse row view. -/
def coarseView (t : List (ForcastEntry Dim)) : List (CoarseRow Dim) :=
  t.map (fun e => ⟨e.loc, e.value⟩)

/-- Steps 5 to 10 of main_raking_function as a function of the raw forecasted admin1
dataset and the prepared (imputed, hierarchy-attached) admin2 dataset: the admin1
dataset is restricted to the requested draw by get_forcasted_ds, then raked against. -/
def main_raked_output (rawCoarse : List (ForcastEntry Dim))
    (fine : List (FineRow Dim)) (draw : Int) : List (Int × (Dim → Option ℚ)) :=
  finalOutput fine (coarseView (whereDrawEq rawCoarse draw))

/-- C10: get_forcasted_ds restricts the coarse dataset to exactly the requested draw
index before any raking step, so the factor computation and the raked output depend
only on the coarse values at that draw: two raw coarse datasets that agree on the
requested draw yield the same factor table and the same raked output. -/
theorem forcasted_draw_restriction (rawCoarse rawCoarse2 : List (ForcastEntry Dim))
    (fine : List (FineRow Dim)) (draw : Int)
    (hagree : rawCoarse.filter (fun e => decide (e.draw = draw)) =
      rawCoarse2.filter (fun e => decide (e.draw = draw))) :
    (∀ e ∈ whereDrawEq rawCoarse draw, e.draw = draw) ∧
    pipelineFactor fine (coarseView (whereDrawEq rawCoarse draw)) =
      pipelineFactor fine (coarseView (whereDrawEq rawCoarse2 draw)) ∧
    main_raked_output rawCoarse fine draw = main_raked_output rawCoarse2 fine draw := by
  have hw : whereDrawEq rawCoarse draw = whereDrawEq rawCoarse2 draw := by
    simp only [whereDrawEq]
    exact hagree
  refine ⟨?_, ?_, ?_⟩
  · intro e he
    exact decide_eq_true_iff.mp (List.mem_filter.mp he).2
  · rw [hw]
  · simp only [main_raked_output]
    rw [hw]

/-- Concrete data for the draw restriction witness: two raw coarse datasets equal at
draw 0 and different at draw 1. -/
def rawCoarseA : List (ForcastEntry (Fin 1)) :=
  [⟨10, 0, fun _ => 100⟩, ⟨10, 1, fun _ => 7⟩]

def rawCoarseB : List (ForcastEntry (Fin 1)) :=
  [⟨10, 0, fun _ => 100⟩, ⟨10, 1, fun _ => 8⟩]

/-- Witness for the draw restriction theorem at the concrete data. -/
theorem forcasted_draw_restriction_witness :
    (rawCoarseA.filter (fun e => decide (e.draw = 0)) =
      rawCoarseB.filter (fun e => decide (e.draw = 0))) ∧
    ((∀ e ∈ whereDrawEq rawCoarseA 0, e.draw = 0) ∧
      pipelineFactor fineEx (coarseView (whereDrawEq rawCoarseA 0)) =
        pipelineFactor fineEx (coarseView (whereDrawEq rawCoarseB 0)) ∧
      main_raked_output rawCoarseA fineEx 0 = main_raked_output rawCoarseB fineEx 0) :=
  ⟨by decide, forcasted_draw_restriction rawCoarseA rawCoarseB fineEx 0 (by decide)⟩

end MalariaDengv
